import Mathlib

/-!
# Verification of the dymos hyper-sensitive documentation example

A shallow embedding of the Hyper-Sensitive example notebook
(`docs/examples/hypersensitive`) and of the documentation table of contents
(`docs/_toc.yml`), together with proofs of the stated properties.

The ODE component `HyperSensitiveODE` maps node-wise input arrays `x`, `xL`,
`u` to output arrays `x_dot = -x + u` and `L = (x² + u²) / 2`.  Numpy
element-wise arithmetic on equal-length one-dimensional arrays is embedded as
`List.zipWith` over an arbitrary field (instantiated at `ℚ` for concrete
evaluation and at `ℝ` for calculus facts).
-/

/-- The inputs of the `HyperSensitiveODE` component, as declared in its
`setup`: the state `x`, the cost state `xL` and the control `u`, one value per
node. -/
structure HSInputs (α : Type*) where
  x : List α
  xL : List α
  u : List α
deriving DecidableEq

/-- The outputs of the `HyperSensitiveODE` component: the state rate `x_dot`
and the Lagrangian `L`, one value per node. -/
structure HSOutputs (α : Type*) where
  x_dot : List α
  L : List α
deriving DecidableEq

/-- One `declare_partials` call: the sparsity pattern (`rows`, `cols`) and the
optional constant value `val`. -/
structure HSPartialDecl (α : Type*) where
  rows : List ℕ
  cols : List ℕ
  val : Option α
deriving DecidableEq

/-- The four partial-derivative declarations made by
`HyperSensitiveODE.setup`, keyed (of, wrt) as
(`x_dot`,`x`), (`x_dot`,`u`), (`L`,`x`), (`L`,`u`). -/
structure HSDecls (α : Type*) where
  dxdot_dx : HSPartialDecl α
  dxdot_du : HSPartialDecl α
  dL_dx : HSPartialDecl α
  dL_du : HSPartialDecl α
deriving DecidableEq

/-- The jacobian storage seen by `compute_partials`: the diagonal values of the
four declared partial-derivative blocks. -/
structure HSJacobian (α : Type*) where
  dxdot_dx : List α
  dxdot_du : List α
  dL_dx : List α
  dL_du : List α
deriving DecidableEq

namespace HyperSensitiveODE

variable {α : Type*} [Field α]

/-- The scalar map applied node-wise for the `x_dot` output:
`outputs['x_dot'] = -x + u`. -/
def f_x_dot (x u : α) : α := -x + u

/-- The scalar map applied node-wise for the `L` output:
`outputs['L'] = (x ** 2 + u ** 2) / 2`. -/
def f_L (x u : α) : α := (x ^ 2 + u ^ 2) / 2

/-- `HyperSensitiveODE.compute`: element-wise evaluation of the two outputs
from the inputs `x` and `u` (the input `xL` is not read). -/
def compute (inputs : HSInputs α) : HSOutputs α where
  x_dot := List.zipWith f_x_dot inputs.x inputs.u
  L := List.zipWith f_L inputs.x inputs.u

/-- `HyperSensitiveODE.setup`, restricted to its `declare_partials` calls: all
four blocks are diagonal (`rows = cols = arange(nn)`); the `x_dot` blocks carry
the constant values `-1` and `1`, the `L` blocks carry no constant value. -/
def setup (nn : ℕ) : HSDecls α where
  dxdot_dx := ⟨List.range nn, List.range nn, some (-1)⟩
  dxdot_du := ⟨List.range nn, List.range nn, some 1⟩
  dL_dx := ⟨List.range nn, List.range nn, none⟩
  dL_du := ⟨List.range nn, List.range nn, none⟩

/-- The jacobian as initialized from the declarations of `setup`: the constant
values `-1` and `1` broadcast over the `nn` diagonal entries of the `x_dot`
blocks, and zeros for the not-yet-computed `L` blocks. -/
def setupJacobian (nn : ℕ) : HSJacobian α where
  dxdot_dx := List.replicate nn (-1)
  dxdot_du := List.replicate nn 1
  dL_dx := List.replicate nn 0
  dL_du := List.replicate nn 0

/-- `HyperSensitiveODE.compute_partials`: writes `jacobian['L','x'] = x` and
`jacobian['L','u'] = u`, leaving every other jacobian entry untouched. -/
def compute_partials (inputs : HSInputs α) (jacobian : HSJacobian α) :
    HSJacobian α :=
  { jacobian with dL_dx := inputs.x, dL_du := inputs.u }

end HyperSensitiveODE

/-- Restriction of a node-indexed array to a subset of node indices, given as
a list of indices (indices beyond the array length select nothing). -/
def selectIdx {α : Type*} (idxs : List ℕ) (l : List α) : List α :=
  idxs.filterMap fun i => l[i]?

/-- Restriction of the whole input record to a subset of node indices. -/
def restrictInputs {α : Type*} (idxs : List ℕ) (inputs : HSInputs α) :
    HSInputs α :=
  ⟨selectIdx idxs inputs.x, selectIdx idxs inputs.xL, selectIdx idxs inputs.u⟩

/-- Restriction of the whole output record to a subset of node indices. -/
def restrictOutputs {α : Type*} (idxs : List ℕ) (o : HSOutputs α) :
    HSOutputs α :=
  ⟨selectIdx idxs o.x_dot, selectIdx idxs o.L⟩

section ZipWithLemmas

variable {α β γ : Type*}

lemma getElem?_zipWith_of_some (f : α → β → γ) {l₁ : List α} {l₂ : List β}
    {i : ℕ} {a : α} {b : β} (h₁ : l₁[i]? = some a) (h₂ : l₂[i]? = some b) :
    (List.zipWith f l₁ l₂)[i]? = some (f a b) := by
  simp [List.getElem?_zipWith', h₁, h₂]

lemma selectIdx_zipWith (f : α → β → γ) (idxs : List ℕ) {l₁ : List α}
    {l₂ : List β} (h : l₁.length = l₂.length) :
    selectIdx idxs (List.zipWith f l₁ l₂) =
      List.zipWith f (selectIdx idxs l₁) (selectIdx idxs l₂) := by
  induction idxs with
  | nil => rfl
  | cons i rest ih =>
    rcases h₁ : l₁[i]? with _ | a
    · have hi : l₁.length ≤ i := by
        simpa [List.getElem?_eq_none_iff] using h₁
      have h₂ : l₂[i]? = none := by
        rw [List.getElem?_eq_none_iff]
        omega
      have h₃ : (List.zipWith f l₁ l₂)[i]? = none := by
        rw [List.getElem?_eq_none_iff, List.length_zipWith]
        omega
      simpa [selectIdx, List.filterMap_cons, h₁, h₂, h₃] using ih
    · have hi : i < l₁.length := (List.getElem?_eq_some_iff.mp h₁).1
      have hlt : i < l₂.length := by omega
      have h₂ := List.getElem?_eq_getElem hlt
      have h₃ := getElem?_zipWith_of_some f h₁ h₂
      simp only [selectIdx, List.filterMap_cons, h₁, h₂, h₃] at *
      simpa using ih

end ZipWithLemmas

/-- C1: For every input arrays `x` and `u` of equal length, `compute` sets the
output `x_dot` element-wise to `-x + u`: at every node index `i`,
`x_dot[i] = -x[i] + u[i]`. -/
theorem compute_x_dot_elementwise {α : Type*} [Field α] (inputs : HSInputs α)
    (hlen : inputs.x.length = inputs.u.length) (i : ℕ) (xi ui : α)
    (hx : inputs.x[i]? = some xi) (hu : inputs.u[i]? = some ui) :
    (HyperSensitiveODE.compute inputs).x_dot[i]? = some (-xi + ui) := by
  have := hlen
  simpa [HyperSensitiveODE.compute, HyperSensitiveODE.f_x_dot] using
    getElem?_zipWith_of_some HyperSensitiveODE.f_x_dot hx hu

/-- Witness for C1: concrete evaluation at `x = [3, 5]`, `u = [7, 11]`,
node `0`. -/
theorem compute_x_dot_elementwise_witness :
    (HyperSensitiveODE.compute
      (⟨[(3 : ℚ), 5], [0, 0], [7, 11]⟩ : HSInputs ℚ)).x_dot[0]? =
      some ((-3 : ℚ) + 7) :=
  compute_x_dot_elementwise (α := ℚ) ⟨[3, 5], [0, 0], [7, 11]⟩ rfl 0 3 7 rfl rfl

/-- C2: For every input arrays `x` and `u` of equal length, `compute` sets the
output `L` element-wise to the running-cost integrand `(x² + u²) / 2`: at
every node index `i`, `L[i] = (x[i]² + u[i]²) / 2`. -/
theorem compute_L_elementwise {α : Type*} [Field α] (inputs : HSInputs α)
    (hlen : inputs.x.length = inputs.u.length) (i : ℕ) (xi ui : α)
    (hx : inputs.x[i]? = some xi) (hu : inputs.u[i]? = some ui) :
    (HyperSensitiveODE.compute inputs).L[i]? = some ((xi ^ 2 + ui ^ 2) / 2) := by
  have := hlen
  simpa [HyperSensitiveODE.compute, HyperSensitiveODE.f_L] using
    getElem?_zipWith_of_some HyperSensitiveODE.f_L hx hu

/-- Witness for C2: concrete evaluation at `x = [3, 5]`, `u = [7, 11]`,
node `1`. -/
theorem compute_L_elementwise_witness :
    (HyperSensitiveODE.compute
      (⟨[(3 : ℚ), 5], [0, 0], [7, 11]⟩ : HSInputs ℚ)).L[1]? =
      some (((5 : ℚ) ^ 2 + 11 ^ 2) / 2) :=
  compute_L_elementwise (α := ℚ) ⟨[3, 5], [0, 0], [7, 11]⟩ rfl 1 5 11 rfl rfl

/-- C8: The outputs of `compute` are independent of the `xL` input: two input
records agreeing on `x` and `u` produce identical outputs, whatever their
`xL` entries. -/
theorem compute_ignores_xL {α : Type*} [Field α] (i₁ i₂ : HSInputs α)
    (hx : i₁.x = i₂.x) (hu : i₁.u = i₂.u) :
    HyperSensitiveODE.compute i₁ = HyperSensitiveODE.compute i₂ := by
  simp [HyperSensitiveODE.compute, hx, hu]

/-- Witness for C8: two concrete inputs differing only in `xL`. -/
theorem compute_ignores_xL_witness :
    HyperSensitiveODE.compute (⟨[(1 : ℚ)], [5], [2]⟩ : HSInputs ℚ) =
      HyperSensitiveODE.compute (⟨[(1 : ℚ)], [9], [2]⟩ : HSInputs ℚ) :=
  compute_ignores_xL _ _ rfl rfl

/-- C9: `compute_partials` writes only the (`L`,`x`) and (`L`,`u`) jacobian
entries; the (`x_dot`,`x`) and (`x_dot`,`u`) entries are left unchanged, and
in particular, starting from the jacobian initialized by `setup`, they keep
the declared constant values `-1` and `1`. -/
theorem compute_partials_frame {α : Type*} [Field α] (inputs : HSInputs α)
    (jac : HSJacobian α) :
    ((HyperSensitiveODE.compute_partials inputs jac).dxdot_dx = jac.dxdot_dx ∧
      (HyperSensitiveODE.compute_partials inputs jac).dxdot_du = jac.dxdot_du) ∧
    ∀ nn : ℕ,
      (HyperSensitiveODE.compute_partials inputs
          (HyperSensitiveODE.setupJacobian nn)).dxdot_dx =
        List.replicate nn (-1) ∧
      (HyperSensitiveODE.compute_partials inputs
          (HyperSensitiveODE.setupJacobian nn)).dxdot_du =
        List.replicate nn 1 :=
  ⟨⟨rfl, rfl⟩, fun _ => ⟨rfl, rfl⟩⟩

/-- Witness for C9: concrete instantiation at one input and jacobian. -/
theorem compute_partials_frame_witness :
    (HyperSensitiveODE.compute_partials (⟨[(1 : ℚ)], [0], [2]⟩ : HSInputs ℚ)
      (⟨[-1], [1], [0], [0]⟩ : HSJacobian ℚ)).dxdot_dx = [-1] :=
  (compute_partials_frame ⟨[(1 : ℚ)], [0], [2]⟩ ⟨[-1], [1], [0], [0]⟩).1.1

/-- C10: `HyperSensitiveODE` is node-wise decoupled: `compute` commutes with
restriction of all input and output arrays to any subset of node indices, and
the Jacobian sparsity declared in `setup` is purely diagonal
(`rows = cols = arange(num_nodes)` for all four blocks). -/
theorem compute_nodewise_decoupled {α : Type*} [Field α] (inputs : HSInputs α)
    (idxs : List ℕ) (hlen : inputs.x.length = inputs.u.length) :
    HyperSensitiveODE.compute (restrictInputs idxs inputs) =
      restrictOutputs idxs (HyperSensitiveODE.compute inputs) ∧
    ∀ nn : ℕ,
      ((HyperSensitiveODE.setup (α := α) nn).dxdot_dx.rows = List.range nn ∧
        (HyperSensitiveODE.setup (α := α) nn).dxdot_dx.cols = List.range nn) ∧
      ((HyperSensitiveODE.setup (α := α) nn).dxdot_du.rows = List.range nn ∧
        (HyperSensitiveODE.setup (α := α) nn).dxdot_du.cols = List.range nn) ∧
      ((HyperSensitiveODE.setup (α := α) nn).dL_dx.rows = List.range nn ∧
        (HyperSensitiveODE.setup (α := α) nn).dL_dx.cols = List.range nn) ∧
      ((HyperSensitiveODE.setup (α := α) nn).dL_du.rows = List.range nn ∧
        (HyperSensitiveODE.setup (α := α) nn).dL_du.cols = List.range nn) := by
  constructor
  · show HSOutputs.mk _ _ = HSOutputs.mk _ _
    rw [HSOutputs.mk.injEq]
    constructor
    · exact (selectIdx_zipWith HyperSensitiveODE.f_x_dot idxs hlen).symm
    · exact (selectIdx_zipWith HyperSensitiveODE.f_L idxs hlen).symm
  · exact fun nn => ⟨⟨rfl, rfl⟩, ⟨rfl, rfl⟩, ⟨rfl, rfl⟩, ⟨rfl, rfl⟩⟩

/-- Witness for C10: restriction to the index list `[2, 0, 0, 7]` (with a
repeated and an out-of-range index) of a three-node input. -/
theorem compute_nodewise_decoupled_witness :
    HyperSensitiveODE.compute
      (restrictInputs [2, 0, 0, 7]
        (⟨[(1 : ℚ), 2, 3], [0, 0, 0], [4, 5, 6]⟩ : HSInputs ℚ)) =
      restrictOutputs [2, 0, 0, 7]
        (HyperSensitiveODE.compute
          (⟨[(1 : ℚ), 2, 3], [0, 0, 0], [4, 5, 6]⟩ : HSInputs ℚ)) :=
  (compute_nodewise_decoupled (α := ℚ) ⟨[1, 2, 3], [0, 0, 0], [4, 5, 6]⟩
    [2, 0, 0, 7] rfl).1

/-- C3: the analytic partials supplied by `HyperSensitiveODE` equal the true
Jacobian of `compute`: `compute_partials` writes `jacobian['L','x'] = x` and
`jacobian['L','u'] = u`, which are the derivatives of
`L = (x² + u²) / 2` in `x` and `u`, and the constant values `-1` and `1`
declared in `setup` for the `x_dot` blocks are the derivatives of
`x_dot = -x + u` in `x` and `u`. -/
theorem compute_partials_exact (inputs : HSInputs ℝ) (jac : HSJacobian ℝ)
    (i : ℕ) (xi ui : ℝ) (hx : inputs.x[i]? = some xi)
    (hu : inputs.u[i]? = some ui) :
    ((HyperSensitiveODE.compute_partials inputs jac).dL_dx[i]? = some xi ∧
      HasDerivAt (fun t => HyperSensitiveODE.f_L t ui) xi xi) ∧
    ((HyperSensitiveODE.compute_partials inputs jac).dL_du[i]? = some ui ∧
      HasDerivAt (fun t => HyperSensitiveODE.f_L xi t) ui ui) ∧
    ((∀ nn : ℕ,
        (HyperSensitiveODE.setup (α := ℝ) nn).dxdot_dx.val = some (-1) ∧
        (HyperSensitiveODE.setup (α := ℝ) nn).dxdot_du.val = some 1) ∧
      HasDerivAt (fun t => HyperSensitiveODE.f_x_dot t ui) (-1) xi ∧
      HasDerivAt (fun t => HyperSensitiveODE.f_x_dot xi t) 1 ui) := by
  refine ⟨⟨hx, ?_⟩, ⟨hu, ?_⟩, fun nn => ⟨rfl, rfl⟩, ?_, ?_⟩
  · have h := ((hasDerivAt_pow 2 xi).add_const (ui ^ 2)).div_const 2
    simp only [HyperSensitiveODE.f_L]
    convert h using 1
    ring
  · have h := ((hasDerivAt_pow 2 ui).const_add (xi ^ 2)).div_const 2
    simp only [HyperSensitiveODE.f_L]
    convert h using 1
    ring
  · have h := ((hasDerivAt_id xi).neg).add_const ui
    simpa [HyperSensitiveODE.f_x_dot] using h
  · have h := (hasDerivAt_id ui).const_add (-xi)
    simpa [HyperSensitiveODE.f_x_dot] using h

/-- Witness for C3: concrete evaluation at `x = [2]`, `u = [3]`, node `0`. -/
theorem compute_partials_exact_witness :
    (HyperSensitiveODE.compute_partials (⟨[(2 : ℝ)], [0], [3]⟩ : HSInputs ℝ)
      (⟨[-1], [1], [0], [0]⟩ : HSJacobian ℝ)).dL_dx[0]? = some 2 ∧
    HasDerivAt (fun t => HyperSensitiveODE.f_L t (3 : ℝ)) 2 2 :=
  (compute_partials_exact ⟨[2], [0], [3]⟩ ⟨[-1], [1], [0], [0]⟩ 0 2 3
    rfl rfl).1

/-- Modelled from the spec: `assert_near_equal` is imported from the external
openmdao package (`openmdao.utils.assert_utils`), whose source is not under
`src/`.  Per the spec it is a numeric-tolerance assertion comparing a computed
value against a reference value, which either passes with no effect or raises
a framework-level assertion failure when the relative difference of the
compared values exceeds the stated tolerance. -/
def assert_near_equal (actual desired tolerance : ℚ) : Except Unit Unit :=
  if |actual - desired| / |desired| > tolerance then Except.error ()
  else Except.ok ()

/-- Modelled from the spec: the driver script's verification cell, which runs
the three `assert_near_equal` checks in sequence — initial control against
`ui` (tolerance `1.5e-2`), final control against `uf` (tolerance `1.5e-2`),
final cost state against `J` (tolerance `1e-2`) — with no exception handler,
so a failure of any check propagates out of the script. -/
def verificationChecks (u0 uFin xLFin ui uf J : ℚ) : Except Unit Unit := do
  assert_near_equal u0 ui 1.5e-2
  assert_near_equal uFin uf 1.5e-2
  assert_near_equal xLFin J 1e-2

/-- C6: every numeric-tolerance assertion of the example either passes with no
effect or raises: `assert_near_equal` raises exactly when the relative
difference exceeds the stated tolerance, and the script's check sequence
succeeds exactly when all three comparisons are within tolerance (any failure
propagates, there being no handler or recovery). -/
theorem assert_near_equal_raises_iff (a d tol : ℚ) :
    (assert_near_equal a d tol = Except.error () ↔ |a - d| / |d| > tol) ∧
    (assert_near_equal a d tol = Except.ok () ↔ ¬|a - d| / |d| > tol) ∧
    ∀ u0 uFin xLFin ui uf J : ℚ,
      verificationChecks u0 uFin xLFin ui uf J = Except.ok () ↔
        (¬|u0 - ui| / |ui| > 1.5e-2 ∧ ¬|uFin - uf| / |uf| > 1.5e-2 ∧
          ¬|xLFin - J| / |J| > 1e-2) := by
  refine ⟨?_, ?_, ?_⟩
  · unfold assert_near_equal
    split_ifs with h <;> simp [h]
  · unfold assert_near_equal
    split_ifs with h <;> simp [h]
  · intro u0 uFin xLFin ui uf J
    unfold verificationChecks assert_near_equal
    simp only [bind, Except.bind]
    split_ifs with h1 h2 h3 <;> simp_all

/-- Witness for C6: concrete instantiation of the first conjunct. -/
theorem assert_near_equal_raises_iff_witness :
    assert_near_equal 1 2 (1 / 2) = Except.error () ↔
      |(1 : ℚ) - 2| / |(2 : ℚ)| > 1 / 2 :=
  (assert_near_equal_raises_iff 1 2 (1 / 2)).1

/-- One entry of the documentation table of contents: a `file:` page
reference, with its nested `sections` file references. -/
structure TocEntry where
  file : String
  sections : List String
deriving DecidableEq

/-- One captioned part of the documentation table of contents, with its
chapter entries. -/
structure TocPart where
  caption : String
  chapters : List TocEntry
deriving DecidableEq

/-- `docs/_toc.yml`: the `format` field. -/
def tocFormat : String := "jb-book"

/-- `docs/_toc.yml`: the `root` page. -/
def tocRoot : String := "index"

/-- `docs/_toc.yml`: the list of captioned parts, each with its chapter
entries and their nested section entries, in file order. -/
def tocParts : List TocPart := [
  ⟨"Installation", [⟨"installation", []⟩]⟩,
  ⟨"Getting Started",
    [⟨"getting_started/collocation", []⟩,
     ⟨"getting_started/defining_odes", []⟩,
     ⟨"getting_started/optimal_control", []⟩,
     ⟨"getting_started/intro_to_dymos/intro_ivp", []⟩,
     ⟨"getting_started/intro_to_dymos/intro_segments", []⟩]⟩,
  ⟨"Examples and Tutorials",
    [⟨"examples/examples",
      ["examples/brachistochrone/brachistochrone",
       "examples/vanderpol/vanderpol",
       "examples/balanced_field/balanced_field",
       "examples/commercial_aircraft/commercial_aircraft",
       "examples/double_integrator/double_integrator",
       "examples/hypersensitive/hypersensitive",
       "examples/finite_burn_orbit_raise/finite_burn_orbit_raise",
       "examples/length_constrained_brachistochrone/length_constrained_brachistochrone",
       "examples/min_time_climb/min_time_climb",
       "examples/multi_phase_cannonball/multi_phase_cannonball",
       "examples/multibranch_trajectory/multibranch_trajectory",
       "examples/racecar/racecar",
       "examples/reentry/reentry",
       "examples/ssto_earth/ssto_earth",
       "examples/ssto_moon_linear_tangent/ssto_moon_linear_tangent",
       "examples/ssto_moon_polynomial_controls/ssto_moon_polynomial_controls",
       "examples/water_rocket/water_rocket"]⟩]⟩,
  ⟨"Feature Reference",
    [⟨"features/phases/phases_list",
      ["features/phases/phases",
       "features/phases/segments",
       "features/phases/variables",
       "features/phases/constraints",
       "features/phases/objective",
       "features/phases/timeseries"]⟩,
     ⟨"features/trajectories/trajectories", []⟩,
     ⟨"features/exploiting_sparsity", []⟩,
     ⟨"features/plotting", []⟩]⟩,
  ⟨"Frequently Asked Questions",
    [⟨"faq/faq",
      ["faq/add_ode_output_to_timeseries",
       "faq/connect_scalar_parameters_to_ode",
       "faq/upstream_analysis",
       "faq/downstream_analysis",
       "faq/tandem_phases",
       "faq/use_partial_coloring",
       "faq/debugging"]⟩]⟩,
  ⟨"Dymos API Reference",
    [⟨"api/api",
      ["api/run_problem",
       "api/phase_api",
       "api/trajectory_api"]⟩]⟩,
  ⟨"Contributing", [⟨"contributing/contributing", []⟩]⟩]

/-- Counterexample for C7: the captions of the fifth and sixth parts are
"Frequently Asked Questions" and "Dymos API Reference", not "FAQ" and
"API Reference", so the caption list claimed by the spec does not match the
table of contents. -/
theorem tocParts_captions_ne_claimed :
    tocParts.map TocPart.caption ≠
      ["Installation", "Getting Started", "Examples and Tutorials",
        "Feature Reference", "FAQ", "API Reference", "Contributing"] := by
  decide

/-- C7 (amended): the table of contents groups its entries into exactly the
captioned parts "Installation", "Getting Started", "Examples and Tutorials",
"Feature Reference", "Frequently Asked Questions", "Dymos API Reference" and
"Contributing", in that order, with every entry a non-empty page or section
file reference. -/
theorem tocParts_captions_eq :
    tocParts.map TocPart.caption =
      ["Installation", "Getting Started", "Examples and Tutorials",
        "Feature Reference", "Frequently Asked Questions",
        "Dymos API Reference", "Contributing"] ∧
    (tocParts.all fun p => p.chapters.all fun c =>
      !c.file.isEmpty && c.sections.all fun s => !s.isEmpty) = true := by
  decide

namespace hypersensitive

/-- The fixed final time `tf = 10` of the driver script (an `np.float128`,
idealized as a real number). -/
noncomputable def tf : ℝ := 10

/-- `sqrt_two = np.sqrt(2)` in `solution()`. -/
noncomputable def sqrt_two : ℝ := Real.sqrt 2

/-- `val = sqrt_two * tf` in `solution()`. -/
noncomputable def val : ℝ := sqrt_two * tf

/-- `c1` in `solution()`. -/
noncomputable def c1 : ℝ :=
  (1.5 * Real.exp (-val) - 1) / (Real.exp (-val) - Real.exp val)

/-- `c2` in `solution()`. -/
noncomputable def c2 : ℝ :=
  (1 - 1.5 * Real.exp val) / (Real.exp (-val) - Real.exp val)

/-- The `solution()` function of the driver script: the triple
`(ui, uf, J)`. -/
noncomputable def solution : ℝ × ℝ × ℝ :=
  (c1 * (1 + sqrt_two) + c2 * (1 - sqrt_two),
   c1 * (1 + sqrt_two) * Real.exp val + c2 * (1 - sqrt_two) * Real.exp (-val),
   0.5 * (c1 ^ 2 * (1 + sqrt_two) * Real.exp (2 * val) +
     c2 ^ 2 * (1 - sqrt_two) * Real.exp (-2 * val) -
     (1 + sqrt_two) * c1 ^ 2 - (1 - sqrt_two) * c2 ^ 2))

/-- The known analytic optimal state trajectory stated in the notebook:
`x*(t) = c1 e^{√2 t} + c2 e^{-√2 t}`. -/
noncomputable def xstar (t : ℝ) : ℝ :=
  c1 * Real.exp (sqrt_two * t) + c2 * Real.exp (-(sqrt_two * t))

/-- The known analytic optimal control stated in the notebook:
`u*(t) = ẋ*(t) + x*(t)`. -/
noncomputable def ustar (t : ℝ) : ℝ := deriv xstar t + xstar t

/-- The analytic cost functional of the notebook:
`J = ½ ∫₀^{tf} (x*(t)² + u*(t)²) dt` evaluated along the optimal
trajectory. -/
noncomputable def Jcost : ℝ :=
  1 / 2 * ∫ t in (0 : ℝ)..tf, (xstar t ^ 2 + ustar t ^ 2)

lemma sqrt_two_sq : sqrt_two ^ 2 = 2 := by
  unfold sqrt_two
  exact Real.sq_sqrt (by norm_num)

lemma hasDerivAt_xstar (t : ℝ) :
    HasDerivAt xstar
      (c1 * (Real.exp (sqrt_two * t) * sqrt_two) +
        c2 * (Real.exp (-(sqrt_two * t)) * -sqrt_two)) t := by
  have h1 : HasDerivAt (fun s : ℝ => sqrt_two * s) sqrt_two t := by
    simpa using (hasDerivAt_id t).const_mul sqrt_two
  have h4 := (h1.exp.const_mul c1).add (h1.neg.exp.const_mul c2)
  have hx : xstar = fun s : ℝ =>
      c1 * Real.exp (sqrt_two * s) + c2 * Real.exp (-(sqrt_two * s)) := rfl
  rw [hx]
  exact h4

lemma ustar_eq (t : ℝ) :
    ustar t = (1 + sqrt_two) * c1 * Real.exp (sqrt_two * t) +
      (1 - sqrt_two) * c2 * Real.exp (-(sqrt_two * t)) := by
  unfold ustar
  rw [(hasDerivAt_xstar t).deriv]
  unfold xstar
  ring

/-- Antiderivative of `x*(t)² + u*(t)²`. -/
noncomputable def Fanti (t : ℝ) : ℝ :=
  c1 ^ 2 * (1 + sqrt_two) * Real.exp (2 * sqrt_two * t) -
    c2 ^ 2 * (sqrt_two - 1) * Real.exp (-(2 * sqrt_two * t))

lemma hasDerivAt_Fanti (t : ℝ) :
    HasDerivAt Fanti (xstar t ^ 2 + ustar t ^ 2) t := by
  have h1 : HasDerivAt (fun s : ℝ => 2 * sqrt_two * s) (2 * sqrt_two) t := by
    simpa using (hasDerivAt_id t).const_mul (2 * sqrt_two)
  have h4 := (h1.exp.const_mul (c1 ^ 2 * (1 + sqrt_two))).sub
    (h1.neg.exp.const_mul (c2 ^ 2 * (sqrt_two - 1)))
  have hF : Fanti = fun s : ℝ =>
      c1 ^ 2 * (1 + sqrt_two) * Real.exp (2 * sqrt_two * s) -
        c2 ^ 2 * (sqrt_two - 1) * Real.exp (-(2 * sqrt_two * s)) := rfl
  rw [hF]
  convert h4 using 1
  rw [ustar_eq]
  unfold xstar
  have hs := sqrt_two_sq
  have hA : Real.exp (2 * sqrt_two * t) =
      Real.exp (sqrt_two * t) * Real.exp (sqrt_two * t) := by
    rw [← Real.exp_add]
    ring_nf
  have hB : Real.exp (-(2 * sqrt_two * t)) =
      Real.exp (-(sqrt_two * t)) * Real.exp (-(sqrt_two * t)) := by
    rw [← Real.exp_add]
    ring_nf
  rw [hA, hB]
  linear_combination
    (-(c1 * Real.exp (sqrt_two * t) + c2 * Real.exp (-(sqrt_two * t))) ^ 2) * hs

lemma continuous_integrand :
    Continuous fun t : ℝ => xstar t ^ 2 + ustar t ^ 2 := by
  have hu : ustar = fun t : ℝ =>
      (1 + sqrt_two) * c1 * Real.exp (sqrt_two * t) +
        (1 - sqrt_two) * c2 * Real.exp (-(sqrt_two * t)) := funext ustar_eq
  have hx : xstar = fun t : ℝ =>
      c1 * Real.exp (sqrt_two * t) + c2 * Real.exp (-(sqrt_two * t)) := rfl
  rw [hu, hx]
  fun_prop

/-- C4: the `solution()` function correctly evaluates the closed-form analytic
optimal solution at `tf`: the returned `ui` equals `u*(0)`, the returned `uf`
equals `u*(tf)`, and the returned `J` equals
`½ ∫₀^{tf} (x*(t)² + u*(t)²) dt`, as identities of exact real arithmetic. -/
theorem solution_correct :
    solution.1 = ustar 0 ∧ solution.2.1 = ustar tf ∧ solution.2.2 = Jcost := by
  refine ⟨?_, ?_, ?_⟩
  · rw [ustar_eq]
    simp only [solution, mul_zero, neg_zero, Real.exp_zero]
    ring
  · rw [ustar_eq]
    simp only [solution]
    unfold val
    ring
  · unfold Jcost
    rw [intervalIntegral.integral_eq_sub_of_hasDerivAt
      (fun t _ => hasDerivAt_Fanti t) (continuous_integrand.intervalIntegrable 0 tf)]
    simp only [solution]
    unfold Fanti val
    simp only [mul_zero, neg_zero, Real.exp_zero, mul_one]
    ring_nf

end hypersensitive
